import Mathlib

/-!
Verification of the PromptForge Template Selection and Artifact Assembly
Engine.  The backend (`backend/main.py` and `backend/templates/*.json`) is
not part of the checked-in sources, so the engine's operations are modelled
from the specification and from the repository documents
(`DELIVERED.md`, `CONTRIBUTING.md`, `AUTO_DEPLOY_SETUP.md`), while the
frontend behaviour is translated from `frontend/src/App.jsx`.

Strings are modelled as lists of characters (`Str`), matching Python's
sequence view of `str`.
-/

set_option maxRecDepth 8192

/-- Program strings are modelled as lists of characters. -/
abbrev Str := List Char

/-- Convert a Lean string literal to the model string type. -/
def str (s : String) : Str := s.data

/-- ASCII letter case table: each pair is an (uppercase, lowercase) letter. -/
def casePairs : List (Char × Char) :=
  [('A', 'a'), ('B', 'b'), ('C', 'c'), ('D', 'd'), ('E', 'e'), ('F', 'f'),
   ('G', 'g'), ('H', 'h'), ('I', 'i'), ('J', 'j'), ('K', 'k'), ('L', 'l'),
   ('M', 'm'), ('N', 'n'), ('O', 'o'), ('P', 'p'), ('Q', 'q'), ('R', 'r'),
   ('S', 's'), ('T', 't'), ('U', 'u'), ('V', 'v'), ('W', 'w'), ('X', 'x'),
   ('Y', 'y'), ('Z', 'z')]

/-- ASCII lowercasing of one character, as Python's `str.lower` acts on
the ASCII range handled by the engine. -/
def toLowerCh (c : Char) : Char :=
  ((casePairs.find? (fun p => p.1 == c)).map (fun p => p.2)).getD c

/-- ASCII uppercasing of one character, as Python's `str.upper` acts on
the ASCII range handled by the engine. -/
def toUpperCh (c : Char) : Char :=
  ((casePairs.find? (fun p => p.2 == c)).map (fun p => p.1)).getD c

/-- Lowercase a whole string (Python `idea.lower()`). -/
def lowerStr (s : Str) : Str := s.map toLowerCh

/-- Does `pat` occur somewhere in the second argument as a contiguous
substring?  This is Python's `pat in s` on strings. -/
def occursIn (pat : Str) : Str → Bool
  | [] => decide (pat = [])
  | c :: s => pat.isPrefixOf (c :: s) || occursIn pat s

/-- The fixed placeholder token `{APP_NAME}` that template artifacts embed
(DELIVERED.md "Placeholder replacement (`{APP_NAME}`)"). -/
def placeholder : Str := ['{', 'A', 'P', 'P', '_', 'N', 'A', 'M', 'E', '}']

/-- Fuel-indexed scan replacing every occurrence of `placeholder` by `rep`,
leftmost first, continuing after each replacement — the semantics of
Python's `text.replace("{APP_NAME}", rep)`.  The fuel is always called
with at least the length of the text, so the exhaustion branch is dead. -/
def replaceAllAux (rep : Str) : Nat → Str → Str
  | _, [] => []
  | 0, _ :: _ => []
  | n + 1, c :: s =>
    if placeholder.isPrefixOf (c :: s) then rep ++ replaceAllAux rep n (s.drop 9)
    else c :: replaceAllAux rep n s

/-- Replace every occurrence of the placeholder token by `rep`. -/
def replaceAll (rep s : Str) : Str := replaceAllAux rep s.length s

/-- Fuel-indexed split of a text on the occurrences of the placeholder
token, with the same leftmost scan as `replaceAllAux`: the result is the
first piece plus the list of later pieces (Python's
`text.split("{APP_NAME}")`, so that replace = split + join). -/
def splitPHAux : Nat → Str → Str × List Str
  | _, [] => ([], [])
  | 0, _ :: _ => ([], [])
  | n + 1, c :: s =>
    if placeholder.isPrefixOf (c :: s) then
      ([], (splitPHAux n (s.drop 9)).1 :: (splitPHAux n (s.drop 9)).2)
    else
      (c :: (splitPHAux n s).1, (splitPHAux n s).2)

/-- Join the later pieces of a split, putting the replacement in front of
each one (each later piece stands right after a replaced occurrence). -/
def glueAll (rep : Str) : List Str → Str
  | [] => []
  | p :: ps => rep ++ p ++ glueAll rep ps

/-- A piece of an artifact (the text between two placeholder occurrences)
is well formed when no `'{'` inside it starts a fragment of the
placeholder token that runs to the end of the piece, nor a whole
occurrence: template code may freely contain braces (`import { useState }`,
function bodies, CSS rules), but no dangling `{APP`-style stub may abut an
occurrence boundary, which is what could let a replacement rebuild the
token. -/
def pieceOK : Str → Bool
  | [] => true
  | c :: s =>
    (decide (c ≠ '{')
      || (!((c :: s).isPrefixOf placeholder) && !(placeholder.isPrefixOf (c :: s))))
    && pieceOK s

/-- An artifact text is well formed when every piece of its
placeholder-split is: the placeholder appears only as whole tokens,
exactly the shape the spec's data model gives artifact blobs
("each a text blob containing zero or more placeholder occurrences"). -/
def artifactOK (s : Str) : Bool :=
  pieceOK (splitPHAux s.length s).1 && (splitPHAux s.length s).2.all pieceOK

/-- A catalog entry (spec §3, CONTRIBUTING.md "Template Structure"): an id,
the keyword list used for scoring, and the four artifact text slots. -/
structure Template where
  id : Str
  keywords : List Str
  frontend : Str
  backend : Str
  database : Str
  deploy : Str
deriving DecidableEq

/-- Result of matching (spec §3): selected template id and keyword score. -/
structure MatchResult where
  templateId : Str
  score : Nat
deriving DecidableEq

/-- The immutable template registry (spec §4.1): templates in registration
order plus the designated default template id. -/
structure Catalog where
  templates : List Template
  defaultId : Str
deriving DecidableEq

/-- Modelled from the spec: the `frontend` slot of the absent
backend/templates/*.json files, shaped after CONTRIBUTING.md's template
example — complete React code, with code braces (`import { useState }`,
JSX expressions, function bodies) outside the placeholder occurrences. -/
def frontendBody : Str :=
  str "// \x7bAPP_NAME\x7d Frontend\n\nimport \x7b useState \x7d from \"react\"\n\nfunction App() \x7b\n  const [items, setItems] = useState([])\n  return <h1>\x7bAPP_NAME\x7d</h1>\n\x7d\n\nexport default App"

/-- Modelled from the spec: the `backend` slot of the absent template
files, shaped after CONTRIBUTING.md's template example — complete FastAPI
code, with dict braces outside the placeholder occurrences. -/
def backendBody : Str :=
  str "# \x7bAPP_NAME\x7d Backend\n\nfrom fastapi import FastAPI\n\napp = FastAPI(title=\"\x7bAPP_NAME\x7d\")\n\n@app.get(\"/\")\ndef read_root():\n    return \x7b\"app\": \"\x7bAPP_NAME\x7d\"\x7d"

/-- Modelled from the spec: the `database` slot of the absent template
files — a Supabase SQL schema. -/
def databaseBody : Str :=
  str "-- \x7bAPP_NAME\x7d schema\n\nCREATE TABLE items (\n  id uuid PRIMARY KEY DEFAULT gen_random_uuid(),\n  title text NOT NULL,\n  created_at timestamptz DEFAULT now()\n);"

/-- Modelled from the spec: the `deploy` slot of the absent template
files — Netlify/Render/Supabase deployment instructions. -/
def deployBody : Str :=
  str "# Deploy \x7bAPP_NAME\x7d\n\n1. Setup Supabase\n2. Deploy backend to Render\n3. Deploy frontend to Netlify\n\nnetlify deploy --dir=dist --message \"\x7bAPP_NAME\x7d\""

/-- Keyword lists of DELIVERED.md "Keywords Database", first entry. -/
def youtubeTemplate : Template :=
  { id := str "youtube"
    keywords := [str "youtube", str "video", str "transcript", str "summarize video"]
    frontend := frontendBody
    backend := backendBody
    database := databaseBody
    deploy := deployBody }

/-- Keyword lists of DELIVERED.md "Keywords Database", second entry. -/
def urlShortenerTemplate : Template :=
  { id := str "url_shortener"
    keywords := [str "url", str "link", str "shortener", str "shorten", str "tiny url"]
    frontend := frontendBody
    backend := backendBody
    database := databaseBody
    deploy := deployBody }

/-- Keyword lists of DELIVERED.md "Keywords Database", third entry; this is
the catalog's designated default (fallback) template. -/
def todoTemplate : Template :=
  { id := str "todo"
    keywords := [str "todo", str "task", str "to-do", str "task manager", str "checklist"]
    frontend := frontendBody
    backend := backendBody
    database := databaseBody
    deploy := deployBody }

/-- Keyword lists of DELIVERED.md "Keywords Database", fourth entry. -/
def expenseTemplate : Template :=
  { id := str "expense"
    keywords := [str "expense", str "budget", str "spending", str "finance", str "money"]
    frontend := frontendBody
    backend := backendBody
    database := databaseBody
    deploy := deployBody }

/-- The catalog, in the registration (iteration) order of the keywords
dictionary in DELIVERED.md, with the fallback target `todo` (DELIVERED.md
"Fallback to 'todo' if no match"). -/
def promptforgeCatalog : Catalog :=
  { templates := [youtubeTemplate, urlShortenerTemplate, todoTemplate, expenseTemplate]
    defaultId := str "todo" }

/-- Keyword score of one template against the lowercased idea text
(spec §4.2 step 2): the number of its keywords occurring as substrings,
each counted once. -/
def scoreOf (low : Str) (t : Template) : Nat :=
  t.keywords.countP (fun k => occursIn k low)

/-- One step of the matcher's best-so-far scan: a later template replaces
the current best only when its score is strictly higher, so the first
template attaining the maximum wins (spec §4.2 step 3). -/
def pickBest (low : Str) (b : MatchResult) (t : Template) : MatchResult :=
  if b.score < scoreOf low t then ⟨t.id, scoreOf low t⟩ else b

/-- Modelled from the spec: `match_template` of the absent backend/main.py,
following §4.2 — lowercase the idea, score every template in registration
order, select the first template with the strictly highest score, and fall
back to the designated default with score 0 when the maximum score is 0. -/
def matchTemplate (idea : Str) (cat : Catalog) : MatchResult :=
  let low := lowerStr idea
  let best := cat.templates.foldl (pickBest low) ⟨cat.defaultId, 0⟩
  if best.score = 0 then ⟨cat.defaultId, 0⟩ else best

/-- Split the idea text into maximal runs of alphanumeric characters,
dropping everything else (spec §4.3: "strip characters outside the
alphanumeric range, split on whitespace/punctuation boundaries").
The second argument accumulates the current word, reversed. -/
def splitWordsAux : Str → Str → List Str
  | [], acc => if acc = [] then [] else [acc.reverse]
  | c :: s, acc =>
    if c.isAlphanum then splitWordsAux s (c :: acc)
    else if acc = [] then splitWordsAux s [] else acc.reverse :: splitWordsAux s []

/-- The alphanumeric words of the idea text, in order. -/
def splitWords (s : Str) : List Str := splitWordsAux s []

/-- Title-case one word (Python `word.capitalize()`): first character
uppercased, the rest lowercased. -/
def capitalize : Str → Str
  | [] => []
  | c :: cs => toUpperCh c :: cs.map toLowerCh

/-- Modelled from the spec: the bounded maximum length of a derived name
(spec §4.3 "truncate to a bounded maximum length").  The bound 20
reproduces the repository's own examples: "Todo list with categories" →
"TodoListWith" and "Simple todo list with categories" →
"SimpleTodoListWith". -/
def maxNameLen : Nat := 20

/-- Concatenate the title-cased words, keeping a word only while the
name stays within the bounded maximum length. -/
def buildName (ws : List Str) : Str :=
  ws.foldl
    (fun acc w =>
      if (acc ++ capitalize w).length ≤ maxNameLen then acc ++ capitalize w else acc)
    []

/-- The fixed generic fallback name (spec §4.3: "fall back to a fixed
generic name (e.g., `\"MyApp\"`)"). -/
def fallbackName : Str := str "MyApp"

/-- Modelled from the spec: `deriveName` of the absent backend/main.py,
following §4.3 — words, title-case, concatenation, truncation, and the
fixed fallback when the cleaned result is empty. -/
def deriveName (s : Str) : Str :=
  let n := buildName (splitWords s)
  if n = [] then fallbackName else n

/-- The four named artifact slots of a generation result (spec §3). -/
structure Artifacts where
  frontend : Str
  backend : Str
  database : Str
  deploy : Str
deriving DecidableEq

/-- Modelled from the spec: the assembler of the absent backend/main.py
(spec §4.4) — every literal occurrence of the placeholder token is
replaced by the application name, across all four slots. -/
def assemble (t : Template) (appName : Str) : Artifacts :=
  { frontend := replaceAll appName t.frontend
    backend := replaceAll appName t.backend
    database := replaceAll appName t.database
    deploy := replaceAll appName t.deploy }

/-- Outcome reported by the deployment provider call (spec §4.5's
external collaborator): a public URL or one of the error classes. -/
inductive ProviderResult where
  | ok (url : Str)
  | authFailure
  | networkFailure
  | quotaExceeded
  | timedOut
deriving DecidableEq

/-- Is the provider outcome one of the error classes? -/
def ProviderResult.isErr : ProviderResult → Bool
  | .ok _ => false
  | _ => true

/-- The bounded, typed deployment outcome (spec §4.5 state machine's
terminal states). -/
inductive DeploymentOutcome where
  | notAttempted
  | deployed (url : Str)
  | failed (reason : Str)
deriving DecidableEq

/-- The live URL reported to the caller, present only for a successful
deployment (AUTO_DEPLOY_SETUP.md response example). -/
def liveUrlOf : DeploymentOutcome → Option Str
  | .deployed u => some u
  | _ => none

/-- Modelled from the spec: the Deployment Orchestrator of the absent
backend (spec §4.5) — every provider error (authentication failure,
network failure, quota exceeded, timeout) is caught and converted to
`failed reason`; a provider URL becomes `deployed url`. -/
def runDeploy (arts : Artifacts) (appName : Str) (provider : ProviderResult) :
    DeploymentOutcome :=
  match arts, appName, provider with
  | _, _, .ok url => .deployed url
  | _, _, .authFailure => .failed (str "auth")
  | _, _, .networkFailure => .failed (str "network")
  | _, _, .quotaExceeded => .failed (str "quota")
  | _, _, .timedOut => .failed (str "timeout")

/-- The single request-level failure (spec §7): empty or blank idea text. -/
inductive ValidationError where
  | blankIdea
deriving DecidableEq

/-- The aggregated generation result (spec §3 and §4.6): derived name,
echoed idea, the four post-substitution artifacts, the match metadata and
the deployment outcome. -/
structure GenerationResponse where
  appName : Str
  ideaEcho : Str
  artifacts : Artifacts
  matched : MatchResult
  deployment : DeploymentOutcome
deriving DecidableEq

/-- JavaScript `String.prototype.trim` / Python `str.strip` whitespace. -/
def isSpaceCh (c : Char) : Bool :=
  c == ' ' || c == '\t' || c == '\n' || c == '\r'

/-- Trim whitespace from both ends (`idea.trim()` in App.jsx). -/
def trimStr (s : Str) : Str :=
  ((s.dropWhile isSpaceCh).reverse.dropWhile isSpaceCh).reverse

/-- Look up a template by id in the catalog, falling back to the default
todo template (the catalog invariant guarantees the id is present). -/
def findTemplate (cat : Catalog) (id : Str) : Template :=
  (cat.templates.find? (fun t => t.id == id)).getD todoTemplate

/-- Modelled from the spec: the full generation operation of the absent
backend (spec §6 and control flow of §2) — validation, matching, name
derivation, assembly, then the optional deployment step, which runs only
when a credential is configured. -/
def generate (idea : Str) (credential : Option Str) (provider : ProviderResult) :
    Except ValidationError GenerationResponse :=
  if trimStr idea = [] then .error .blankIdea
  else
    let cleaned := trimStr idea
    let m := matchTemplate cleaned promptforgeCatalog
    let t := findTemplate promptforgeCatalog m.templateId
    let name := deriveName cleaned
    let arts := assemble t name
    let dep := match credential with
      | none => DeploymentOutcome.notAttempted
      | some _ => runDeploy arts name provider
    .ok { appName := name, ideaEcho := cleaned, artifacts := arts,
          matched := m, deployment := dep }

/-- What the frontend does with a submitted idea, from App.jsx
`handleGenerate`: a blank idea short-circuits into an error message and no
request is sent; otherwise the trimmed idea is posted to the backend. -/
inductive FrontendAction where
  | showError (msg : Str)
  | sendRequest (body : Str)
deriving DecidableEq

/-- From src/frontend/src/App.jsx lines 21–26: `if (!idea.trim())` sets
the error 'Please enter an app idea' and returns before `fetch`. -/
def handleGenerate (idea : Str) : FrontendAction :=
  if trimStr idea = [] then .showError (str "Please enter an app idea")
  else .sendRequest (trimStr idea)

/-- The browser-visible outcome of the fetch in App.jsx: an OK response
carrying the parsed data, or a non-OK HTTP response with whatever status
and error detail the backend sent. -/
inductive FetchOutcome where
  | httpOk (data : GenerationResponse)
  | httpErr (status : Nat) (detail : Str)
deriving DecidableEq

/-- The pieces of component state App.jsx sets after a fetch. -/
structure UiState where
  uiError : Option Str
  uiResult : Option GenerationResponse
deriving DecidableEq

/-- From src/frontend/src/App.jsx lines 40–50: a non-OK response throws
`new Error('Generation failed')`, caught by the handler which stores
`err.message` as the visible error; the response body is never read, and
no result is stored.  An OK response stores the parsed data. -/
def handleResponse (r : FetchOutcome) : UiState :=
  match r with
  | .httpOk data => { uiError := none, uiResult := some data }
  | .httpErr _ _ => { uiError := some (str "Generation failed"), uiResult := none }

/-- Modelled from the claim's own words, for comparison with the engine:
the first template in registration (iteration) order attaining the maximum
keyword score — with no zero-score fallback to the default template. -/
def firstMaxPair (idea : Str) (cat : Catalog) : MatchResult :=
  match cat.templates with
  | [] => ⟨cat.defaultId, 0⟩
  | t :: ts => ts.foldl (pickBest (lowerStr idea)) ⟨t.id, scoreOf (lowerStr idea) t⟩

example : occursIn (str "video") (str "a video app") = true := by decide

example : occursIn (str "url") (str "shortener") = false := by decide

example : lowerStr (str "Todo List!") = str "todo list!" := by decide

example : replaceAll (str "MyApp") (str "hi \x7bAPP_NAME\x7d!") = str "hi MyApp!" := by decide

example : artifactOK (str "import \x7b useState \x7d with a \x7bAPP_NAME\x7d title") = true := by decide

example : artifactOK (str "broken \x7bAPP_\x7bAPP_NAME\x7dNAME\x7d text") = false := by decide

example : occursIn placeholder
    (replaceAll (str "NA") (str "x\x7bAPP_\x7bAPP_NAME\x7dME\x7dy")) = true := by decide

example : artifactOK frontendBody = true := by decide

example : artifactOK backendBody = true := by decide

example : matchTemplate (str "A simple TODO list") promptforgeCatalog
    = ⟨str "todo", 1⟩ := by decide

example : matchTemplate (str "hello world") promptforgeCatalog
    = ⟨str "todo", 0⟩ := by decide

example : matchTemplate (str "YouTube video summarizer") promptforgeCatalog
    = ⟨str "youtube", 2⟩ := by decide

example : deriveName (str "Todo list with categories") = str "TodoListWith" := by decide

example : deriveName (str "Simple todo list with categories") = str "SimpleTodoListWith" := by decide

example : deriveName (str "!!!") = str "MyApp" := by decide

example : deriveName (str "") = str "MyApp" := by decide

example : trimStr (str "  todo app  ") = str "todo app" := by decide

example : trimStr (str "   ") = str "" := by decide

theorem isPrefixOf_cons_head {x : Char} {l : Str}
    (h : placeholder.isPrefixOf (x :: l) = true) : x = '{' := by
  have : ('{' == x) && (placeholder.tail.isPrefixOf l) = true := by
    simpa [placeholder, List.isPrefixOf] using h
  have hx : ('{' == x) = true := by
    cases hxx : ('{' == x) <;> simp [hxx] at this ⊢
  exact (beq_iff_eq.mp hx).symm

theorem occursIn_append_of_not_brace {rep R : Str}
    (hrep : '{' ∉ rep) (hR : occursIn placeholder R = false) :
    occursIn placeholder (rep ++ R) = false := by
  induction rep with
  | nil => simpa using hR
  | cons x xs ih =>
    have hx : x ≠ '{' := by
      intro hxe; exact hrep (by simp [hxe])
    have hxs : '{' ∉ xs := by
      intro hm; exact hrep (by simp [hm])
    have hpre : placeholder.isPrefixOf (x :: (xs ++ R)) = false := by
      cases hp : placeholder.isPrefixOf (x :: (xs ++ R)) with
      | false => rfl
      | true => exact absurd (isPrefixOf_cons_head hp) hx
    rw [List.cons_append]
    show (placeholder.isPrefixOf (x :: (xs ++ R)) || occursIn placeholder (xs ++ R)) = false
    rw [hpre, Bool.false_or]
    exact ih hxs

theorem replaceAllAux_eq_glue (rep : Str) :
    ∀ (n : Nat) (s : Str),
      replaceAllAux rep n s
        = (splitPHAux n s).1 ++ glueAll rep (splitPHAux n s).2 := by
  intro n
  induction n with
  | zero =>
    intro s
    cases s with
    | nil => rfl
    | cons c t => rfl
  | succ n ih =>
    intro s
    cases s with
    | nil => rfl
    | cons c t =>
      by_cases hp : placeholder.isPrefixOf (c :: t) = true
      · have h1 : replaceAllAux rep (n+1) (c :: t)
            = rep ++ replaceAllAux rep n (t.drop 9) := by
          simp [replaceAllAux, hp]
        have h2 : splitPHAux (n+1) (c :: t)
            = ([], (splitPHAux n (t.drop 9)).1 :: (splitPHAux n (t.drop 9)).2) := by
          simp [splitPHAux, hp]
        rw [h1, h2, ih]
        simp [glueAll, List.append_assoc]
      · have hp' : placeholder.isPrefixOf (c :: t) = false := Bool.eq_false_iff.mpr hp
        have h1 : replaceAllAux rep (n+1) (c :: t) = c :: replaceAllAux rep n t := by
          simp [replaceAllAux, hp']
        have h2 : splitPHAux (n+1) (c :: t)
            = (c :: (splitPHAux n t).1, (splitPHAux n t).2) := by
          simp [splitPHAux, hp']
        rw [h1, h2, ih]
        rfl

theorem isPrefixOf_append_of_le :
    ∀ (p u z : Str), p.isPrefixOf (u ++ z) = true → p.length ≤ u.length →
      p.isPrefixOf u = true
  | [], _, _, _, _ => by simp [List.isPrefixOf]
  | a :: p', [], z, h, hl => by simp at hl
  | a :: p', b :: u', z, h, hl => by
    have h' : a = b ∧ p'.isPrefixOf (u' ++ z) = true := by
      simpa [List.isPrefixOf] using h
    have ih := isPrefixOf_append_of_le p' u' z h'.2 (by simpa using hl)
    simp [List.isPrefixOf, h'.1, ih]

theorem isPrefixOf_flip :
    ∀ (u p z : Str), p.isPrefixOf (u ++ z) = true → u.length ≤ p.length →
      u.isPrefixOf p = true
  | [], _, _, _, _ => by simp [List.isPrefixOf]
  | b :: u', [], z, h, hl => by simp at hl
  | b :: u', a :: p', z, h, hl => by
    have h' : a = b ∧ p'.isPrefixOf (u' ++ z) = true := by
      simpa [List.isPrefixOf] using h
    have ih := isPrefixOf_flip u' p' z h'.2 (by simpa using hl)
    simp [List.isPrefixOf, h'.1, ih]

theorem pieceOK_suffix :
    ∀ (p u' : Str), pieceOK p = true → ('{' :: u') <:+ p →
      ('{' :: u').isPrefixOf placeholder = false ∧
      placeholder.isPrefixOf ('{' :: u') = false := by
  intro p
  induction p with
  | nil =>
    intro u' _ hsuf
    rcases hsuf with ⟨t, ht⟩
    simp at ht
  | cons c s ih =>
    intro u' hok hsuf
    have hok' : (decide (c ≠ '{')
        || (!((c :: s).isPrefixOf placeholder)
            && !(placeholder.isPrefixOf (c :: s)))) = true
        ∧ pieceOK s = true := by
      simpa [pieceOK] using hok
    rcases hsuf with ⟨t, ht⟩
    cases t with
    | nil =>
      simp at ht
      obtain ⟨hc, hs⟩ := ht
      subst hc
      subst hs
      have hb : ((('{' : Char) :: u').isPrefixOf placeholder) = false
          ∧ (placeholder.isPrefixOf ('{' :: u')) = false := by
        simpa using hok'.1
      exact hb
    | cons d t' =>
      simp at ht
      exact ih u' hok'.2 ⟨t', ht.2⟩

theorem occursIn_append_cases :
    ∀ (X Y : Str), occursIn placeholder (X ++ Y) = true →
      (∃ u, u ≠ [] ∧ u <:+ X ∧ placeholder.isPrefixOf (u ++ Y) = true) ∨
      occursIn placeholder Y = true := by
  intro X
  induction X with
  | nil => intro Y h; exact Or.inr (by simpa using h)
  | cons x X' ih =>
    intro Y h
    by_cases hb : placeholder.isPrefixOf (x :: (X' ++ Y)) = true
    · refine Or.inl ⟨x :: X', by simp, List.suffix_refl _, ?_⟩
      simpa [List.cons_append] using hb
    · have hb' : placeholder.isPrefixOf (x :: (X' ++ Y)) = false :=
        Bool.eq_false_iff.mpr hb
      have h2 : occursIn placeholder (X' ++ Y) = true := by
        have hun : (placeholder.isPrefixOf (x :: (X' ++ Y))
            || occursIn placeholder (X' ++ Y)) = true := by
          simpa [occursIn] using h
        simpa [hb'] using hun
      rcases ih Y h2 with ⟨u, hne, hsuf, hpre⟩ | hY
      · exact Or.inl ⟨u, hne, hsuf.trans (List.suffix_cons x X'), hpre⟩
      · exact Or.inr hY

theorem piece_no_stub {p z : Str} (hp : pieceOK p = true) :
    ∀ u, u ≠ [] → u <:+ p → placeholder.isPrefixOf (u ++ z) = true → False := by
  intro u hne hsuf hpre
  cases u with
  | nil => exact hne rfl
  | cons x u' =>
    have hx : x = '{' := isPrefixOf_cons_head (by simpa [List.cons_append] using hpre)
    subst hx
    have hgate := pieceOK_suffix p u' hp hsuf
    rcases Nat.le_total placeholder.length (('{' :: u') : Str).length with hl | hl
    · have hfull : placeholder.isPrefixOf ('{' :: u') = true :=
        isPrefixOf_append_of_le placeholder ('{' :: u') z hpre hl
      rw [hgate.2] at hfull
      exact Bool.false_ne_true hfull
    · have hstub : (('{' : Char) :: u').isPrefixOf placeholder = true :=
        isPrefixOf_flip ('{' :: u') placeholder z hpre hl
      rw [hgate.1] at hstub
      exact Bool.false_ne_true hstub

theorem piece_append_no_occurrence {p R : Str} (hp : pieceOK p = true)
    (hR : occursIn placeholder R = false) :
    occursIn placeholder (p ++ R) = false := by
  cases hocc : occursIn placeholder (p ++ R) with
  | false => rfl
  | true =>
    rcases occursIn_append_cases p R hocc with ⟨u, hne, hsuf, hpre⟩ | hY
    · exact (piece_no_stub hp u hne hsuf hpre).elim
    · rw [hR] at hY
      exact (Bool.false_ne_true hY).elim

theorem glueAll_no_occurrence {rep : Str} (hrep : '{' ∉ rep) :
    ∀ ps : List Str, (∀ p ∈ ps, pieceOK p = true) →
      occursIn placeholder (glueAll rep ps) = false := by
  intro ps
  induction ps with
  | nil => intro _; simp [glueAll, occursIn, placeholder]
  | cons p ps ih =>
    intro hall
    have h1 : glueAll rep (p :: ps) = rep ++ (p ++ glueAll rep ps) := by
      simp [glueAll, List.append_assoc]
    rw [h1]
    exact occursIn_append_of_not_brace hrep
      (piece_append_no_occurrence (hall p (by simp))
        (ih (fun q hq => hall q (by simp [hq]))))

/-- Replacing the placeholder token by a brace-free string in a
well-formed artifact (placeholder present only as whole tokens) leaves no
occurrence of the token — even when the artifact contains code braces
elsewhere. -/
theorem replaceAll_no_leftover {rep s : Str} (hrep : '{' ∉ rep)
    (hs : artifactOK s = true) :
    occursIn placeholder (replaceAll rep s) = false := by
  have hs' : pieceOK (splitPHAux s.length s).1 = true
      ∧ ∀ p ∈ (splitPHAux s.length s).2, pieceOK p = true := by
    simpa [artifactOK, List.all_eq_true] using hs
  have hbr : replaceAll rep s
      = (splitPHAux s.length s).1 ++ glueAll rep (splitPHAux s.length s).2 :=
    replaceAllAux_eq_glue rep s.length s
  rw [hbr]
  exact piece_append_no_occurrence hs'.1 (glueAll_no_occurrence hrep _ hs'.2)

theorem foldBest_cases (low : Str) (l : List Template) :
    ∀ init : MatchResult,
      (l.foldl (pickBest low) init = init ∧ ∀ t ∈ l, scoreOf low t ≤ init.score) ∨
      (∃ l1 t l2, l = l1 ++ t :: l2 ∧
        l.foldl (pickBest low) init = ⟨t.id, scoreOf low t⟩ ∧
        init.score < scoreOf low t ∧
        (∀ u ∈ l1, scoreOf low u < scoreOf low t) ∧
        (∀ u ∈ l2, scoreOf low u ≤ scoreOf low t)) := by
  induction l with
  | nil => intro init; exact Or.inl ⟨rfl, by simp⟩
  | cons a l ih =>
    intro init
    rw [List.foldl_cons]
    by_cases h : init.score < scoreOf low a
    · have hp : pickBest low init a = ⟨a.id, scoreOf low a⟩ := by
        simp [pickBest, h]
      rw [hp]
      rcases ih ⟨a.id, scoreOf low a⟩ with ⟨heq, hall⟩ | ⟨l1, t, l2, hsplit, heq, hlt, hbef, haft⟩
      · exact Or.inr ⟨[], a, l, by simp, heq, h, by simp, by
          intro u hu; simpa using hall u hu⟩
      · refine Or.inr ⟨a :: l1, t, l2, by simp [hsplit], heq, ?_, ?_, haft⟩
        · exact lt_trans h (by simpa using hlt)
        · intro u hu
          rcases List.mem_cons.mp hu with rfl | hu
          · simpa using hlt
          · exact hbef u hu
    · have hp : pickBest low init a = init := by
        simp [pickBest, h]
      rw [hp]
      rcases ih init with ⟨heq, hall⟩ | ⟨l1, t, l2, hsplit, heq, hlt, hbef, haft⟩
      · refine Or.inl ⟨heq, ?_⟩
        intro t ht
        rcases List.mem_cons.mp ht with rfl | ht
        · exact Nat.le_of_not_lt h
        · exact hall t ht
      · refine Or.inr ⟨a :: l1, t, l2, by simp [hsplit], heq, hlt, ?_, haft⟩
        intro u hu
        rcases List.mem_cons.mp hu with rfl | hu
        · exact Nat.lt_of_le_of_lt (Nat.le_of_not_lt h) hlt
        · exact hbef u hu

theorem toUpperCh_isAlphanum {c : Char} (h : c.isAlphanum = true) :
    (toUpperCh c).isAlphanum = true := by
  unfold toUpperCh
  cases hf : casePairs.find? (fun p => p.2 == c) with
  | none => simpa using h
  | some p =>
    have hp : p ∈ casePairs := List.mem_of_find?_eq_some hf
    have : ∀ q ∈ casePairs, (q.1).isAlphanum = true := by decide
    simpa using this p hp

theorem toLowerCh_isAlphanum {c : Char} (h : c.isAlphanum = true) :
    (toLowerCh c).isAlphanum = true := by
  unfold toLowerCh
  cases hf : casePairs.find? (fun p => p.1 == c) with
  | none => simpa using h
  | some p =>
    have hp : p ∈ casePairs := List.mem_of_find?_eq_some hf
    have : ∀ q ∈ casePairs, (q.2).isAlphanum = true := by decide
    simpa using this p hp

theorem splitWordsAux_chars :
    ∀ (s acc : Str), (∀ c ∈ acc, c.isAlphanum = true) →
      ∀ w ∈ splitWordsAux s acc, ∀ c ∈ w, c.isAlphanum = true := by
  intro s
  induction s with
  | nil =>
    intro acc hacc w hw c hc
    by_cases h : acc = []
    · simp [splitWordsAux, h] at hw
    · have : w = acc.reverse := by simpa [splitWordsAux, h] using hw
      exact hacc c (by simpa [this] using hc)
  | cons a s ih =>
    intro acc hacc w hw c hc
    by_cases ha : a.isAlphanum = true
    · have hacc' : ∀ c ∈ a :: acc, c.isAlphanum = true := by
        intro d hd
        rcases List.mem_cons.mp hd with rfl | hd
        · exact ha
        · exact hacc d hd
      have hw' : w ∈ splitWordsAux s (a :: acc) := by
        simpa [splitWordsAux, ha] using hw
      exact ih (a :: acc) hacc' w hw' c hc
    · have ha' : a.isAlphanum = false := Bool.eq_false_iff.mpr ha
      by_cases h : acc = []
      · have hw' : w ∈ splitWordsAux s [] := by
          simpa [splitWordsAux, ha', h] using hw
        exact ih [] (by simp) w hw' c hc
      · have hw' : w = acc.reverse ∨ w ∈ splitWordsAux s [] := by
          simpa [splitWordsAux, ha', h] using hw
        rcases hw' with rfl | hw'
        · exact hacc c (by simpa using hc)
        · exact ih [] (by simp) w hw' c hc

theorem capitalize_chars {w : Str} (hw : ∀ c ∈ w, c.isAlphanum = true) :
    ∀ c ∈ capitalize w, c.isAlphanum = true := by
  cases w with
  | nil => simp [capitalize]
  | cons a cs =>
    intro c hc
    have hc' : c = toUpperCh a ∨ ∃ d ∈ cs, toLowerCh d = c := by
      simpa [capitalize] using hc
    rcases hc' with rfl | ⟨d, hd, rfl⟩
    · exact toUpperCh_isAlphanum (hw a (by simp))
    · exact toLowerCh_isAlphanum (hw d (by simp [hd]))

theorem buildName_chars :
    ∀ (ws : List Str) (acc : Str), (∀ c ∈ acc, c.isAlphanum = true) →
      (∀ w ∈ ws, ∀ c ∈ w, c.isAlphanum = true) →
      ∀ c ∈ ws.foldl
        (fun acc w =>
          if (acc ++ capitalize w).length ≤ maxNameLen then acc ++ capitalize w else acc)
        acc, c.isAlphanum = true := by
  intro ws
  induction ws with
  | nil => intro acc hacc _ c hc; exact hacc c (by simpa using hc)
  | cons w ws ih =>
    intro acc hacc hws c hc
    rw [List.foldl_cons] at hc
    by_cases h : (acc ++ capitalize w).length ≤ maxNameLen
    · rw [if_pos h] at hc
      have hacc' : ∀ d ∈ acc ++ capitalize w, d.isAlphanum = true := by
        intro d hd
        rcases List.mem_append.mp hd with hd | hd
        · exact hacc d hd
        · exact capitalize_chars (hws w (by simp)) d hd
      refine ih (acc ++ capitalize w) hacc' ?_ c hc
      intro u hu; exact hws u (by simp [hu])
    · rw [if_neg h] at hc
      refine ih acc hacc ?_ c hc
      intro u hu; exact hws u (by simp [hu])

/-- The derived name is made of alphanumeric characters only. -/
theorem deriveName_chars (s : Str) : ∀ c ∈ deriveName s, c.isAlphanum = true := by
  intro c hc
  unfold deriveName at hc
  by_cases h : buildName (splitWords s) = []
  · have hcf : c ∈ fallbackName := by simpa [h] using hc
    have hall : ∀ d ∈ fallbackName, d.isAlphanum = true := by decide
    exact hall c hcf
  · have hc' : c ∈ buildName (splitWords s) := by simpa [h] using hc
    exact buildName_chars (splitWords s) [] (by simp)
      (splitWordsAux_chars s [] (by simp)) c hc'

/-- The derived name never contains a brace, so it can never reintroduce
the placeholder token during assembly. -/
theorem deriveName_no_brace (s : Str) : '{' ∉ deriveName s := by
  intro hm
  have := deriveName_chars s '{' hm
  simp at this

theorem matchTemplate_eq_default (idea : Str) (cat : Catalog)
    (h : (cat.templates.foldl (pickBest (lowerStr idea)) ⟨cat.defaultId, 0⟩).score = 0) :
    matchTemplate idea cat = ⟨cat.defaultId, 0⟩ := by
  show (if (cat.templates.foldl (pickBest (lowerStr idea)) ⟨cat.defaultId, 0⟩).score = 0
      then (⟨cat.defaultId, 0⟩ : MatchResult)
      else cat.templates.foldl (pickBest (lowerStr idea)) ⟨cat.defaultId, 0⟩)
    = ⟨cat.defaultId, 0⟩
  rw [if_pos h]

theorem matchTemplate_eq_best (idea : Str) (cat : Catalog)
    (h : (cat.templates.foldl (pickBest (lowerStr idea)) ⟨cat.defaultId, 0⟩).score ≠ 0) :
    matchTemplate idea cat
      = cat.templates.foldl (pickBest (lowerStr idea)) ⟨cat.defaultId, 0⟩ := by
  show (if (cat.templates.foldl (pickBest (lowerStr idea)) ⟨cat.defaultId, 0⟩).score = 0
      then (⟨cat.defaultId, 0⟩ : MatchResult)
      else cat.templates.foldl (pickBest (lowerStr idea)) ⟨cat.defaultId, 0⟩)
    = cat.templates.foldl (pickBest (lowerStr idea)) ⟨cat.defaultId, 0⟩
  rw [if_neg h]

/-- Claim C1, counterexample: on an idea matching no keyword at all, every
template ties at the maximum score 0 and the first template in
registration order is `youtube`, yet `match` returns the default template
`todo` — so the claim's unconditional "first template attaining the
maximum score" rule does not hold at maximum score 0. -/
theorem C1_counterexample :
    firstMaxPair (str "hello world") promptforgeCatalog
      = ⟨str "youtube", 0⟩ ∧
    matchTemplate (str "hello world") promptforgeCatalog
      = ⟨str "todo", 0⟩ ∧
    (matchTemplate (str "hello world") promptforgeCatalog).templateId
      ≠ (firstMaxPair (str "hello world") promptforgeCatalog).templateId := by
  decide

/-- Claim C1 (amended): for every idea text and catalog, whenever at least
one template scores positively, `match` returns the first template in
registration (iteration) order attaining the strictly highest keyword
score, together with that score; the score of a template is the number of
its keywords occurring as substrings of the lowercased idea text. -/
theorem C1_match_first_highest (idea : Str) (cat : Catalog)
    (h : ∃ t ∈ cat.templates, 0 < scoreOf (lowerStr idea) t) :
    ∃ l1 t l2, cat.templates = l1 ++ t :: l2 ∧
      matchTemplate idea cat = ⟨t.id, scoreOf (lowerStr idea) t⟩ ∧
      (∀ u ∈ l1, scoreOf (lowerStr idea) u < scoreOf (lowerStr idea) t) ∧
      (∀ u ∈ l2, scoreOf (lowerStr idea) u ≤ scoreOf (lowerStr idea) t) := by
  rcases h with ⟨t0, ht0, hpos0⟩
  rcases foldBest_cases (lowerStr idea) cat.templates ⟨cat.defaultId, 0⟩
    with ⟨heq, hall⟩ | ⟨l1, t, l2, hsplit, heq, hlt, hbef, haft⟩
  · exact absurd (hall t0 ht0) (by simpa using Nat.pos_iff_ne_zero.mp hpos0)
  · have hpos : 0 < scoreOf (lowerStr idea) t := by simpa using hlt
    have hne : (cat.templates.foldl (pickBest (lowerStr idea)) ⟨cat.defaultId, 0⟩).score ≠ 0 := by
      rw [heq]
      simpa using Nat.pos_iff_ne_zero.mp hpos
    refine ⟨l1, t, l2, hsplit, ?_, hbef, haft⟩
    rw [matchTemplate_eq_best idea cat hne, heq]

/-- Witness for C1: on the idea "todo app" the matcher selects the todo
template, which is preceded by strictly lower-scoring templates and
followed by no higher-scoring one. -/
theorem C1_match_first_highest_witness :
    ∃ l1 t l2, promptforgeCatalog.templates = l1 ++ t :: l2 ∧
      matchTemplate (str "todo app") promptforgeCatalog
        = ⟨t.id, scoreOf (lowerStr (str "todo app")) t⟩ ∧
      (∀ u ∈ l1, scoreOf (lowerStr (str "todo app")) u
        < scoreOf (lowerStr (str "todo app")) t) ∧
      (∀ u ∈ l2, scoreOf (lowerStr (str "todo app")) u
        ≤ scoreOf (lowerStr (str "todo app")) t) :=
  C1_match_first_highest (str "todo app") promptforgeCatalog
    ⟨todoTemplate, by decide, by decide⟩

/-- Claim C2: when no keyword of any catalog template occurs in the
lowercased idea text, `match` returns the designated default (todo)
template with score 0; and `match` is total — for every idea it returns a
template id present in the catalog. -/
theorem C2_match_fallback_total (idea : Str)
    (h : ∀ t ∈ promptforgeCatalog.templates, ∀ k ∈ t.keywords,
      occursIn k (lowerStr idea) = false) :
    matchTemplate idea promptforgeCatalog = ⟨str "todo", 0⟩ ∧
    promptforgeCatalog.defaultId = str "todo" ∧
    ∀ j : Str, (matchTemplate j promptforgeCatalog).templateId
      ∈ promptforgeCatalog.templates.map Template.id := by
  have hzero : ∀ t ∈ promptforgeCatalog.templates, scoreOf (lowerStr idea) t = 0 := by
    intro t ht
    unfold scoreOf
    rw [List.countP_eq_zero]
    intro k hk
    simp [h t ht k hk]
  refine ⟨?_, rfl, ?_⟩
  · rcases foldBest_cases (lowerStr idea) promptforgeCatalog.templates
      ⟨promptforgeCatalog.defaultId, 0⟩
      with ⟨heq, _⟩ | ⟨l1, t, l2, hsplit, heq, hlt, _, _⟩
    · have h0 : (promptforgeCatalog.templates.foldl (pickBest (lowerStr idea))
          ⟨promptforgeCatalog.defaultId, 0⟩).score = 0 := by
        rw [heq]
      exact matchTemplate_eq_default idea promptforgeCatalog h0
    · have ht : t ∈ promptforgeCatalog.templates := by
        rw [hsplit]; exact List.mem_append_right l1 (List.mem_cons_self t l2)
      have := hzero t ht
      simp [this] at hlt
  · intro j
    rcases foldBest_cases (lowerStr j) promptforgeCatalog.templates
      ⟨promptforgeCatalog.defaultId, 0⟩
      with ⟨heq, _⟩ | ⟨l1, t, l2, hsplit, heq, hlt, _, _⟩
    · have h0 : (promptforgeCatalog.templates.foldl (pickBest (lowerStr j))
          ⟨promptforgeCatalog.defaultId, 0⟩).score = 0 := by rw [heq]
      rw [matchTemplate_eq_default j promptforgeCatalog h0]
      decide
    · have ht : t ∈ promptforgeCatalog.templates := by
        rw [hsplit]; exact List.mem_append_right l1 (List.mem_cons_self t l2)
      by_cases hs : scoreOf (lowerStr j) t = 0
      · have h0 : (promptforgeCatalog.templates.foldl (pickBest (lowerStr j))
            ⟨promptforgeCatalog.defaultId, 0⟩).score = 0 := by
          rw [heq]; simpa using hs
        rw [matchTemplate_eq_default j promptforgeCatalog h0]
        decide
      · have hne : (promptforgeCatalog.templates.foldl (pickBest (lowerStr j))
            ⟨promptforgeCatalog.defaultId, 0⟩).score ≠ 0 := by
          rw [heq]; simpa using hs
        rw [matchTemplate_eq_best j promptforgeCatalog hne, heq]
        exact List.mem_map_of_mem Template.id ht

/-- Witness for C2: the idea "hello world" contains no catalog keyword and
falls back to the todo template with score 0. -/
theorem C2_match_fallback_total_witness :
    matchTemplate (str "hello world") promptforgeCatalog = ⟨str "todo", 0⟩ ∧
    promptforgeCatalog.defaultId = str "todo" ∧
    ∀ j : Str, (matchTemplate j promptforgeCatalog).templateId
      ∈ promptforgeCatalog.templates.map Template.id :=
  C2_match_fallback_total (str "hello world") (by decide)

/-- Claim C9, counterexample: "video" is registered exclusively to the
youtube template and occurs in the idea "url link shortener video", yet
`match` does not return the youtube template (url_shortener scores
strictly higher). -/
theorem C9_counterexample :
    (str "video") ∈ youtubeTemplate.keywords ∧
    (∀ u ∈ promptforgeCatalog.templates,
      u.id ≠ youtubeTemplate.id → (str "video") ∉ u.keywords) ∧
    occursIn (str "video") (lowerStr (str "url link shortener video")) = true ∧
    youtubeTemplate ∈ promptforgeCatalog.templates ∧
    (matchTemplate (str "url link shortener video") promptforgeCatalog).templateId
      ≠ youtubeTemplate.id := by
  decide

/-- Claim C9 (amended): for every idea text containing (in lowercased
form) a keyword registered exclusively to catalog template T, T scores at
least 1 and `match` returns a template whose score is at least T's score
(hence at least 1); `match` need not return T itself when another template
scores higher or an earlier template ties. -/
theorem C9_exclusive_keyword_scores (idea : Str) (t : Template) (k : Str)
    (ht : t ∈ promptforgeCatalog.templates) (hk : k ∈ t.keywords)
    (_hexcl : ∀ u ∈ promptforgeCatalog.templates, u.id ≠ t.id → k ∉ u.keywords)
    (hocc : occursIn k (lowerStr idea) = true) :
    1 ≤ scoreOf (lowerStr idea) t ∧
    scoreOf (lowerStr idea) t ≤ (matchTemplate idea promptforgeCatalog).score ∧
    1 ≤ (matchTemplate idea promptforgeCatalog).score := by
  have hpos : 0 < scoreOf (lowerStr idea) t := by
    unfold scoreOf
    exact List.countP_pos_iff.mpr ⟨k, hk, hocc⟩
  rcases foldBest_cases (lowerStr idea) promptforgeCatalog.templates
    ⟨promptforgeCatalog.defaultId, 0⟩
    with ⟨heq, hall⟩ | ⟨l1, t', l2, hsplit, heq, hlt, hbef, haft⟩
  · exact absurd (hall t ht) (by simpa using Nat.pos_iff_ne_zero.mp hpos)
  · have hle : scoreOf (lowerStr idea) t ≤ scoreOf (lowerStr idea) t' := by
      rw [hsplit] at ht
      rcases List.mem_append.mp ht with ht | ht
      · exact Nat.le_of_lt (hbef t ht)
      · rcases List.mem_cons.mp ht with rfl | ht
        · exact Nat.le_refl _
        · exact haft t ht
    have hpos' : 0 < scoreOf (lowerStr idea) t' := Nat.lt_of_lt_of_le hpos hle
    have hne : (promptforgeCatalog.templates.foldl (pickBest (lowerStr idea))
        ⟨promptforgeCatalog.defaultId, 0⟩).score ≠ 0 := by
      rw [heq]; simpa using Nat.pos_iff_ne_zero.mp hpos'
    rw [matchTemplate_eq_best idea promptforgeCatalog hne, heq]
    exact ⟨hpos, by simpa using hle, by simpa using hpos'⟩

/-- Witness for C9: the keyword "todo" is exclusive to the todo template
and occurs in "todo app"; the matcher's returned score dominates it. -/
theorem C9_exclusive_keyword_scores_witness :
    1 ≤ scoreOf (lowerStr (str "todo app")) todoTemplate ∧
    scoreOf (lowerStr (str "todo app")) todoTemplate
      ≤ (matchTemplate (str "todo app") promptforgeCatalog).score ∧
    1 ≤ (matchTemplate (str "todo app") promptforgeCatalog).score :=
  C9_exclusive_keyword_scores (str "todo app") todoTemplate (str "todo")
    (by decide) (by decide) (by decide) (by decide)

theorem catalog_templates_ok :
    ∀ u ∈ promptforgeCatalog.templates,
      artifactOK u.frontend = true ∧ artifactOK u.backend = true ∧
      artifactOK u.database = true ∧ artifactOK u.deploy = true := by
  decide

theorem assemble_placeholder_free {t : Template}
    (ht : t ∈ promptforgeCatalog.templates) {name : Str} (hname : '{' ∉ name) :
    occursIn placeholder (assemble t name).frontend = false ∧
    occursIn placeholder (assemble t name).backend = false ∧
    occursIn placeholder (assemble t name).database = false ∧
    occursIn placeholder (assemble t name).deploy = false := by
  have hcl := catalog_templates_ok t ht
  exact ⟨replaceAll_no_leftover hname hcl.1,
    replaceAll_no_leftover hname hcl.2.1,
    replaceAll_no_leftover hname hcl.2.2.1,
    replaceAll_no_leftover hname hcl.2.2.2⟩

theorem findTemplate_mem (id : Str) :
    findTemplate promptforgeCatalog id ∈ promptforgeCatalog.templates := by
  unfold findTemplate
  cases hf : promptforgeCatalog.templates.find? (fun t => t.id == id) with
  | none =>
    rw [Option.getD_none]
    decide
  | some t =>
    rw [Option.getD_some]
    exact List.mem_of_find?_eq_some hf

/-- Claim C3: for every catalog template and every derived application
name, the four assembled artifacts contain zero remaining occurrences of
the placeholder token. -/
theorem C3_assembled_placeholder_free (s : Str) (t : Template)
    (ht : t ∈ promptforgeCatalog.templates) :
    occursIn placeholder (assemble t (deriveName s)).frontend = false ∧
    occursIn placeholder (assemble t (deriveName s)).backend = false ∧
    occursIn placeholder (assemble t (deriveName s)).database = false ∧
    occursIn placeholder (assemble t (deriveName s)).deploy = false :=
  assemble_placeholder_free ht (deriveName_no_brace s)

/-- Witness for C3: assembling the todo template with the name derived
from "todo app" leaves no placeholder in any slot. -/
theorem C3_assembled_placeholder_free_witness :
    occursIn placeholder
      (assemble todoTemplate (deriveName (str "todo app"))).frontend = false ∧
    occursIn placeholder
      (assemble todoTemplate (deriveName (str "todo app"))).backend = false ∧
    occursIn placeholder
      (assemble todoTemplate (deriveName (str "todo app"))).database = false ∧
    occursIn placeholder
      (assemble todoTemplate (deriveName (str "todo app"))).deploy = false :=
  C3_assembled_placeholder_free (str "todo app") todoTemplate (by decide)

/-- Claim C4: for every input string the derived name is non-empty and
consists only of alphanumeric characters (valid in identifiers and
filenames); inputs whose cleaned result is empty, such as "" and "!!!",
yield the fixed fallback name "MyApp", never an empty string. -/
theorem C4_deriveName_safe (s : Str) :
    deriveName s ≠ [] ∧
    (∀ c ∈ deriveName s, c.isAlphanum = true) ∧
    deriveName (str "") = fallbackName ∧
    deriveName (str "!!!") = fallbackName ∧
    fallbackName = str "MyApp" ∧ fallbackName ≠ [] := by
  refine ⟨?_, deriveName_chars s, by decide, by decide, rfl, by decide⟩
  unfold deriveName
  by_cases h : buildName (splitWords s) = []
  · rw [if_pos h]
    decide
  · rw [if_neg h]
    exact h

/-- Witness for C4: the input "budget app" derives the non-empty
alphanumeric name. -/
theorem C4_deriveName_safe_witness :
    deriveName (str "budget app") ≠ [] ∧
    (∀ c ∈ deriveName (str "budget app"), c.isAlphanum = true) ∧
    deriveName (str "") = fallbackName ∧
    deriveName (str "!!!") = fallbackName ∧
    fallbackName = str "MyApp" ∧ fallbackName ≠ [] :=
  C4_deriveName_safe (str "budget app")

theorem generate_eq_ok (idea : Str) (credential : Option Str)
    (provider : ProviderResult) (hidea : trimStr idea ≠ []) :
    generate idea credential provider = .ok
      { appName := deriveName (trimStr idea)
        ideaEcho := trimStr idea
        artifacts := assemble
          (findTemplate promptforgeCatalog
            (matchTemplate (trimStr idea) promptforgeCatalog).templateId)
          (deriveName (trimStr idea))
        matched := matchTemplate (trimStr idea) promptforgeCatalog
        deployment := match credential with
          | none => DeploymentOutcome.notAttempted
          | some _ => runDeploy
              (assemble
                (findTemplate promptforgeCatalog
                  (matchTemplate (trimStr idea) promptforgeCatalog).templateId)
                (deriveName (trimStr idea)))
              (deriveName (trimStr idea)) provider } := by
  unfold generate
  rw [if_neg hidea]

/-- Claim C5: for every generation request with a configured credential,
any provider error (authentication failure, network failure, quota
exceeded, timeout) is converted by the orchestrator into the outcome
`failed reason`; the generation call still succeeds and its response
carries all four fully substituted artifacts. -/
theorem C5_provider_errors_recovered (idea : Str) (cred : Str)
    (provider : ProviderResult) (hidea : trimStr idea ≠ [])
    (herr : provider.isErr = true) :
    ∃ resp, generate idea (some cred) provider = .ok resp ∧
      (∃ reason, resp.deployment = .failed reason) ∧
      occursIn placeholder resp.artifacts.frontend = false ∧
      occursIn placeholder resp.artifacts.backend = false ∧
      occursIn placeholder resp.artifacts.database = false ∧
      occursIn placeholder resp.artifacts.deploy = false := by
  refine ⟨_, generate_eq_ok idea (some cred) provider hidea, ?_, ?_⟩
  · cases provider with
    | ok url => simp [ProviderResult.isErr] at herr
    | authFailure => exact ⟨str "auth", rfl⟩
    | networkFailure => exact ⟨str "network", rfl⟩
    | quotaExceeded => exact ⟨str "quota", rfl⟩
    | timedOut => exact ⟨str "timeout", rfl⟩
  · exact assemble_placeholder_free
      (findTemplate_mem (matchTemplate (trimStr idea) promptforgeCatalog).templateId)
      (deriveName_no_brace (trimStr idea))

/-- Witness for C5: a timed-out provider call on the idea "todo app"
yields a successful generation whose deployment outcome is a failure. -/
theorem C5_provider_errors_recovered_witness :
    ∃ resp, generate (str "todo app") (some (str "nfp_token"))
        ProviderResult.timedOut = .ok resp ∧
      (∃ reason, resp.deployment = .failed reason) ∧
      occursIn placeholder resp.artifacts.frontend = false ∧
      occursIn placeholder resp.artifacts.backend = false ∧
      occursIn placeholder resp.artifacts.database = false ∧
      occursIn placeholder resp.artifacts.deploy = false :=
  C5_provider_errors_recovered (str "todo app") (str "nfp_token")
    ProviderResult.timedOut (by decide) (by decide)

/-- Claim C6: for every generation request without a configured
credential, the orchestrator is never invoked (the result does not depend
on the provider at all), the deployment outcome is `notAttempted`, no
live URL is present, and all four artifacts are present and fully
substituted. -/
theorem C6_no_credential_not_attempted (idea : Str) (hidea : trimStr idea ≠ []) :
    (∀ p q : ProviderResult, generate idea none p = generate idea none q) ∧
    ∃ resp, generate idea none ProviderResult.timedOut = .ok resp ∧
      resp.deployment = .notAttempted ∧
      liveUrlOf resp.deployment = none ∧
      occursIn placeholder resp.artifacts.frontend = false ∧
      occursIn placeholder resp.artifacts.backend = false ∧
      occursIn placeholder resp.artifacts.database = false ∧
      occursIn placeholder resp.artifacts.deploy = false := by
  constructor
  · intro p q
    rw [generate_eq_ok idea none p hidea, generate_eq_ok idea none q hidea]
  · refine ⟨_, generate_eq_ok idea none ProviderResult.timedOut hidea,
      rfl, rfl, ?_⟩
    exact assemble_placeholder_free
      (findTemplate_mem (matchTemplate (trimStr idea) promptforgeCatalog).templateId)
      (deriveName_no_brace (trimStr idea))

/-- Witness for C6: generating "todo app" without a credential. -/
theorem C6_no_credential_not_attempted_witness :
    (∀ p q : ProviderResult,
      generate (str "todo app") none p = generate (str "todo app") none q) ∧
    ∃ resp, generate (str "todo app") none ProviderResult.timedOut = .ok resp ∧
      resp.deployment = .notAttempted ∧
      liveUrlOf resp.deployment = none ∧
      occursIn placeholder resp.artifacts.frontend = false ∧
      occursIn placeholder resp.artifacts.backend = false ∧
      occursIn placeholder resp.artifacts.database = false ∧
      occursIn placeholder resp.artifacts.deploy = false :=
  C6_no_credential_not_attempted (str "todo app") (by decide)

/-- Claim C7: a request whose idea is empty or blank after trimming is
stopped by validation — the frontend shows 'Please enter an app idea'
without sending a request, and the backend call fails with the validation
error before any matching happens; a non-blank idea passes this step and
proceeds to matching. -/
theorem C7_blank_idea_validation (idea : Str) (credential : Option Str)
    (provider : ProviderResult) :
    (trimStr idea = [] →
      handleGenerate idea = .showError (str "Please enter an app idea") ∧
      generate idea credential provider = .error .blankIdea) ∧
    (trimStr idea ≠ [] →
      handleGenerate idea = .sendRequest (trimStr idea) ∧
      ∃ resp, generate idea credential provider = .ok resp ∧
        resp.matched = matchTemplate (trimStr idea) promptforgeCatalog) := by
  constructor
  · intro h
    constructor
    · unfold handleGenerate
      rw [if_pos h]
    · unfold generate
      rw [if_pos h]
  · intro h
    constructor
    · unfold handleGenerate
      rw [if_neg h]
    · exact ⟨_, generate_eq_ok idea credential provider h, rfl⟩

/-- Witness for C7: the blank idea "   " is rejected by both layers, and
the idea "todo app" passes validation into matching. -/
theorem C7_blank_idea_validation_witness :
    (handleGenerate (str "   ") = .showError (str "Please enter an app idea") ∧
      generate (str "   ") none ProviderResult.timedOut = .error .blankIdea) ∧
    (handleGenerate (str "todo app") = .sendRequest (trimStr (str "todo app")) ∧
      ∃ resp, generate (str "todo app") none ProviderResult.timedOut = .ok resp ∧
        resp.matched = matchTemplate (trimStr (str "todo app")) promptforgeCatalog) :=
  ⟨(C7_blank_idea_validation (str "   ") none ProviderResult.timedOut).1 (by decide),
   (C7_blank_idea_validation (str "todo app") none ProviderResult.timedOut).2 (by decide)⟩

/-- Claim C8: assembly is deterministic — two runs of `assemble` on the
same template and the same name produce byte-identical artifacts in all
four slots; the model is a pure function of its inputs, with no
randomness or timestamps. -/
theorem C8_assemble_deterministic (t : Template) (name : Str)
    (r1 r2 : Artifacts) (h1 : r1 = assemble t name) (h2 : r2 = assemble t name) :
    r1.frontend = r2.frontend ∧ r1.backend = r2.backend ∧
    r1.database = r2.database ∧ r1.deploy = r2.deploy := by
  subst h1
  subst h2
  exact ⟨rfl, rfl, rfl, rfl⟩

/-- Witness for C8: two assemblies of the todo template with the fallback
name agree in every slot. -/
theorem C8_assemble_deterministic_witness :
    (assemble todoTemplate fallbackName).frontend
      = (assemble todoTemplate fallbackName).frontend ∧
    (assemble todoTemplate fallbackName).backend
      = (assemble todoTemplate fallbackName).backend ∧
    (assemble todoTemplate fallbackName).database
      = (assemble todoTemplate fallbackName).database ∧
    (assemble todoTemplate fallbackName).deploy
      = (assemble todoTemplate fallbackName).deploy :=
  C8_assemble_deterministic todoTemplate fallbackName _ _ rfl rfl

/-- Claim C10: in the frontend, every non-OK HTTP response from the
generate endpoint — whatever its status and whatever error detail the
backend sent — produces the single generic visible message
'Generation failed', discards the backend detail, and displays no
result. -/
theorem C10_generic_error_message (status status' : Nat) (detail detail' : Str) :
    handleResponse (.httpErr status detail)
      = { uiError := some (str "Generation failed"), uiResult := none } ∧
    handleResponse (.httpErr status detail)
      = handleResponse (.httpErr status' detail') :=
  ⟨rfl, rfl⟩
